import Mathlib

/-!
Verification development for the chitti interactive terminal assistant.

The Rust sources are shallowly embedded: pure data types become inductive
types, stateful loops become explicit state-passing functions, and the
asynchronous streams become lists of items consumed in order.  Rust
`String` payloads are embedded as Lean `String`, except the SSE line
decoder where lines are embedded as `List Char` so that prefix/slice
operations are transparent.  `serde_json::Value` is embedded as `Json`.
-/

/-- Embedding of `serde_json::Value` (numbers restricted to integers; no
claim depends on float payloads). -/
inductive Json where
  | null : Json
  | bool : Bool → Json
  | num : Int → Json
  | str : String → Json
  | arr : List Json → Json
  | obj : List (String × Json) → Json

/-- Role of an interaction turn, from `brains/gemini/types.rs`. -/
inductive Role where
  | User : Role
  | Model : Role
  | Tool : Role
deriving DecidableEq, Repr

/-- Embedding of `FunctionCall` from `brains/gemini/types.rs`.  The `args`
field is serialized JSON (the conductor stores the brain event's value
there). -/
structure FunctionCall where
  id : Option String
  name : String
  args : Json
  thought_signature : Option String

/-- Embedding of `FunctionResponse` from `brains/gemini/types.rs`.  The
`id` field serializes as `call_id` and `response` serializes as `result`
on the wire. -/
structure FunctionResponse where
  id : Option String
  name : String
  response : Json

/-- Embedding of `MediaPart` from `brains/gemini/types.rs`. -/
structure MediaPart where
  uri : Option String
  data : Option String
  mime_type : String
deriving DecidableEq, Repr

/-- Embedding of `InteractionPart` from `brains/gemini/types.rs`. -/
inductive InteractionPart where
  | Text : String → InteractionPart
  | Thought : (signature : String) → (summary : String) → InteractionPart
  | Image : MediaPart → InteractionPart
  | Audio : MediaPart → InteractionPart
  | Video : MediaPart → InteractionPart
  | Document : MediaPart → InteractionPart
  | FunctionCall : FunctionCall → InteractionPart
  | FunctionResponse : FunctionResponse → InteractionPart

/-- Embedding of `InteractionContent` (a transparent wrapper around a list
of parts; `From<String>` wraps a single text part). -/
def InteractionContent := List InteractionPart

/-- Embedding of `InteractionContent::from(text)`. -/
def contentFromText (text : String) : InteractionContent :=
  [InteractionPart.Text text]

/-- Embedding of `InteractionTurn` from `brains/gemini/types.rs`. -/
structure InteractionTurn where
  role : Role
  content : InteractionContent

/-- Embedding of `InteractionInput` from `brains/gemini/types.rs`. -/
inductive InteractionInput where
  | Text : String → InteractionInput
  | Parts : List InteractionPart → InteractionInput
  | Turns : List InteractionTurn → InteractionInput

/-- Embedding of `InteractionOutput` from `brains/gemini/types.rs`. -/
inductive InteractionOutput where
  | Text : (text : String) → InteractionOutput
  | Thought : (signature : String) → (summary : String) → InteractionOutput
  | ThoughtSignature : (signature : String) → InteractionOutput
  | Image : MediaPart → InteractionOutput
  | Audio : MediaPart → InteractionOutput
  | Video : MediaPart → InteractionOutput
  | Document : MediaPart → InteractionOutput
  | FunctionCall : FunctionCall → InteractionOutput
  | FunctionResponse : FunctionResponse → InteractionOutput
  | SearchTool : Json → InteractionOutput
  | GoogleSearchCall : Json → InteractionOutput
  | GoogleSearchResult : Json → InteractionOutput
  | ContentDelta : (text : String) → (thought : Option Bool) → InteractionOutput
  | ThoughtSummary : (summary : String) → (signature : String) → InteractionOutput
  | Unknown : InteractionOutput

/-- Embedding of `InteractionResponse` from `brains/gemini/types.rs`
(the serde catch-all `extra` map of unknown fields is not modelled). -/
structure InteractionResponse where
  id : Option String
  model : String
  status : String
  outputs : List InteractionOutput

/-- Embedding of `ContentStartInfo` from `brains/gemini/types.rs`. -/
structure ContentStartInfo where
  content_type : String
deriving DecidableEq, Repr

/-- Embedding of `InteractionEvent` from `brains/gemini/types.rs`: the
typed events decoded from the SSE stream. -/
inductive InteractionEvent where
  | InteractionStart : (interaction : InteractionResponse) → InteractionEvent
  | StatusUpdate : (status : String) → InteractionEvent
  | ContentStart : (index : Nat) → (content : ContentStartInfo) → InteractionEvent
  | ContentDelta : (delta : InteractionOutput) → (index : Option Nat) → InteractionEvent
  | InteractionComplete : (interaction : InteractionResponse) → InteractionEvent
  | Other : InteractionEvent

/-!
SSE decoding, from `parse_sse_stream` in `src/brains/gemini/interactions.rs`.

The byte stream has already been split by the LF-delimited `LinesCodec`;
the decoder sees a sequence of lines.  A line is embedded as `List Char`
so that the `starts_with`/byte-slice operations of the source are
transparent list operations.  JSON deserialization
(`serde_json::from_str::<InteractionEvent>`) is an external library and is
abstracted as a parameter `parseEvent`; a payload is "valid JSON for an
event" exactly when `parseEvent` returns `some`.
-/

/-- Characters of the `"data: "` prefix checked by the decoder. -/
def dataPrefix : List Char := "data: ".data

/-- Characters of the `"[DONE]"` terminator payload. -/
def doneMarker : List Char := "[DONE]".data

/-- Embedding of the loop body of `parse_sse_stream`: for each line, if it
begins with `"data: "` strip the prefix; terminate on `"[DONE]"`;
otherwise parse, yielding the event on success and skipping the line
(after only a log warning) on failure.  Lines without the prefix are
ignored. -/
def parse_sse_stream (parseEvent : List Char → Option InteractionEvent) :
    List (List Char) → List InteractionEvent
  | [] => []
  | line :: rest =>
    if dataPrefix.isPrefixOf line then
      let data := line.drop dataPrefix.length
      if data = doneMarker then []
      else
        match parseEvent data with
        | some event => event :: parse_sse_stream parseEvent rest
        | none => parse_sse_stream parseEvent rest
    else parse_sse_stream parseEvent rest

/-!
Interaction request building, from `src/brains/gemini/interactions.rs`
(`InteractionRequestBuilder`) and the shared types in
`src/brains/gemini/types.rs`.
-/

/-- Embedding of `FunctionDeclaration` from `brains/gemini/types.rs`. -/
structure FunctionDeclaration where
  name : String
  description : String
  parameters : Option Json

/-- Embedding of `Tool` from `brains/gemini/types.rs`. -/
inductive Tool where
  | GoogleSearch : Tool
  | CodeExecution : Tool
  | UrlContext : Tool
  | Function : (declaration : FunctionDeclaration) → Tool
  | ComputerUse : (environment : String) →
      (excluded_predefined_functions : Option (List String)) → Tool
  | McpServer : (name : String) → (url : String) → Tool

/-- Embedding of `ToolChoice` from `brains/gemini/types.rs`. -/
inductive ToolChoice where
  | Auto : ToolChoice
  | Any : ToolChoice
  | Function : (name : String) → ToolChoice
  | NoneChoice : ToolChoice

/-- Embedding of `ThinkingLevel` from `brains/gemini/types.rs`. -/
inductive ThinkingLevel where
  | Minimal : ThinkingLevel
  | Low : ThinkingLevel
  | Medium : ThinkingLevel
  | High : ThinkingLevel
deriving DecidableEq, Repr

/-- Embedding of `GenerationConfig` from `brains/gemini/types.rs` (the
`temperature` float is kept opaque as a JSON payload; the serde-flattened
`extra` map is a key/value list). -/
structure GenerationConfig where
  thinking_level : Option ThinkingLevel := none
  temperature : Option Json := none
  max_output_tokens : Option Nat := none
  response_mime_type : Option String := none
  response_schema : Option Json := none
  response_modalities : Option (List String) := none
  image_config : Option Json := none
  speech_config : Option Json := none
  extra : List (String × Json) := []

/-- Embedding of Rust `GenerationConfig::default()`. -/
instance : Inhabited GenerationConfig := ⟨{}⟩

/-- Embedding of `SafetyCategory` from `brains/gemini/types.rs`. -/
inductive SafetyCategory where
  | HateSpeech | SexuallyExplicit | Harassment | DangerousContent | CivicIntegrity
deriving DecidableEq, Repr

/-- Embedding of `SafetyThreshold` from `brains/gemini/types.rs`. -/
inductive SafetyThreshold where
  | BlockNone | BlockOnlyHigh | BlockMediumAndAbove | BlockLowAndAbove
deriving DecidableEq, Repr

/-- Embedding of `SafetySetting` from `brains/gemini/types.rs`. -/
structure SafetySetting where
  category : SafetyCategory
  threshold : SafetyThreshold
deriving DecidableEq, Repr

/-- Embedding of `InteractionRequest` from `brains/gemini/types.rs`. -/
structure InteractionRequest where
  model : Option String
  cached_content : Option String
  agent : Option String
  input : InteractionInput
  system_instruction : Option InteractionContent
  previous_interaction_id : Option String
  tools : Option (List Tool)
  tool_choice : Option ToolChoice
  generation_config : Option GenerationConfig
  safety_settings : Option (List SafetySetting)
  store : Option Bool
  background : Option Bool
  stream : Option Bool

/-- Embedding of the pure data of `Client` from `brains/gemini/client.rs`
(the reqwest `http_client` handle is external I/O state). -/
structure Client where
  api_key : String
  model : String
  base_url : String

/-- Embedding of `InteractionRequestBuilder` from
`brains/gemini/interactions.rs`. -/
structure InteractionRequestBuilder where
  client : Client
  request : InteractionRequest

namespace InteractionRequestBuilder

/-- Embedding of `InteractionRequestBuilder::new`: the request starts with
the client model, `store = Some(false)` (privacy-first default) and every
other optional field unset. -/
def new (client : Client) (input : InteractionInput) : InteractionRequestBuilder :=
  { client := client
    request :=
      { model := some client.model
        cached_content := none
        agent := none
        input := input
        system_instruction := none
        previous_interaction_id := none
        tools := none
        tool_choice := none
        generation_config := none
        safety_settings := none
        store := some false
        background := none
        stream := none } }

/-- Embedding of the `model` setter: sets `request.model`, leaving every
other field (including `agent`) unchanged. -/
def model (b : InteractionRequestBuilder) (m : String) : InteractionRequestBuilder :=
  { b with request := { b.request with model := some m } }

/-- Embedding of the `agent` setter: sets `request.agent` and clears
`request.model` (model and agent are mutually exclusive in the API). -/
def agent (b : InteractionRequestBuilder) (a : String) : InteractionRequestBuilder :=
  { b with request := { b.request with agent := some a, model := none } }

/-- Embedding of the `cached_content` setter. -/
def cached_content (b : InteractionRequestBuilder) (n : String) : InteractionRequestBuilder :=
  { b with request := { b.request with cached_content := some n } }

/-- Embedding of the `previous_interaction_id` setter. -/
def previous_interaction_id (b : InteractionRequestBuilder) (id : String) :
    InteractionRequestBuilder :=
  { b with request := { b.request with previous_interaction_id := some id } }

/-- Embedding of the `tools` setter. -/
def tools (b : InteractionRequestBuilder) (ts : List Tool) : InteractionRequestBuilder :=
  { b with request := { b.request with tools := some ts } }

/-- Embedding of the `thinking_level` setter: takes the current generation
config (or the default) and sets its `thinking_level`. -/
def thinking_level (b : InteractionRequestBuilder) (level : ThinkingLevel) :
    InteractionRequestBuilder :=
  let config := b.request.generation_config.getD {}
  { b with request := { b.request with
      generation_config := some { config with thinking_level := some level } } }

/-- Embedding of the `store` setter. -/
def store (b : InteractionRequestBuilder) (s : Bool) : InteractionRequestBuilder :=
  { b with request := { b.request with store := some s } }

end InteractionRequestBuilder

/-!
Retry logic, from `RequestBuilder::send` in `src/gemini/client.rs`.

One wire-level attempt is abstracted as `wire : Nat → SendOutcome`,
mapping the attempt number to either an HTTP response status or a network
error.  `cloneable` states whether `reqwest::RequestBuilder::try_clone`
succeeds for this request (it fails for streaming bodies).  The trace
records how many attempts were sent, the backoff sleeps performed (in
seconds) and the final result.
-/

/-- Outcome of one wire-level send attempt: an HTTP response with the
given status code, or a network error. -/
inductive SendOutcome where
  | ok : (status : Nat) → SendOutcome
  | netErr : SendOutcome
deriving DecidableEq, Repr

/-- Errors `RequestBuilder::send` can return: `GeminiError::Http`
(transport) or `GeminiError::Other("Request builder exhausted")`. -/
inductive SendError where
  | http : SendError
  | exhausted : SendError
deriving DecidableEq, Repr

/-- Trace of a `send` call: number of attempts actually sent, backoff
sleeps performed in order (seconds), and the returned value (a response
status or an error). -/
structure SendTrace where
  sends : Nat
  sleeps : List Nat
  result : Except SendError Nat

/-- Embedding of `reqwest::StatusCode::is_success` (2xx). -/
def status_success (s : Nat) : Bool := 200 ≤ s && s < 300

/-- Statuses the retry loop treats as retryable: 429, 500, 503. -/
def retryable_status (s : Nat) : Bool := s == 429 || s == 500 || s == 503

/-- Loop of `RequestBuilder::send`.  `remaining = max_retries + 1 - attempt`
counts the retries still allowed, so `remaining = 0` is the source's
`is_last_attempt` (`attempt > max_retries`).  `source` tracks whether the
original builder is still held (`Option<reqwest::RequestBuilder>` in the
source): on a non-last attempt a cloneable request is sent as a clone and
`source` is kept, a non-cloneable one consumes `source`; the last attempt
always consumes `source`.  A retry (sleep, double backoff, next attempt)
happens only when `source` is still held and the outcome was a network
error or a retryable status. -/
def sendAux (wire : Nat → SendOutcome) (cloneable : Bool) :
    Nat → Nat → Nat → Bool → SendTrace
  | 0, attempt, _backoff, source =>
    if source then
      match wire attempt with
      | .ok s => ⟨1, [], .ok s⟩
      | .netErr => ⟨1, [], .error .http⟩
    else ⟨0, [], .error .exhausted⟩
  | r + 1, attempt, backoff, source =>
    if source then
      let sourceAfter := cloneable
      match wire attempt with
      | .ok s =>
        if status_success s then ⟨1, [], .ok s⟩
        else if sourceAfter && retryable_status s then
          let t := sendAux wire cloneable r (attempt + 1) (backoff * 2) sourceAfter
          ⟨t.sends + 1, backoff :: t.sleeps, t.result⟩
        else ⟨1, [], .ok s⟩
      | .netErr =>
        if sourceAfter then
          let t := sendAux wire cloneable r (attempt + 1) (backoff * 2) sourceAfter
          ⟨t.sends + 1, backoff :: t.sleeps, t.result⟩
        else ⟨1, [], .error .http⟩
    else ⟨0, [], .error .exhausted⟩

/-- Embedding of `RequestBuilder::send`: `max_retries = 3`, first attempt
numbered 1, initial backoff 1 second, source builder held. -/
def RequestBuilder.send (wire : Nat → SendOutcome) (cloneable : Bool) : SendTrace :=
  sendAux wire cloneable 3 1 1 true

/-!
Brain-adapter output translation, from `GeminiEngine::process_turn` in
`src/brains/gemini/adapter.rs` (streaming arm).  The adapter maps each
decoded `InteractionEvent` to a normalized `BrainEvent`; a stream `Err`
becomes a single error item.
-/

/-- Embedding of `BrainEvent` as used by `src/conductor/mod.rs`:
normalized events the conductor consumes from the brain adapter. -/
inductive BrainEvent where
  | TextDelta : String → BrainEvent
  | ThoughtDelta : String → BrainEvent
  | ThoughtSignature : String → BrainEvent
  | ToolCall : (name : String) → (id : String) → (args : Json) → BrainEvent
  | Complete : (interaction_id : Option String) → BrainEvent
  | Error : String → BrainEvent

/-- Embedding of `serde_json::to_value` on the function-call argument map
(always succeeds on a map, so the `unwrap_or_default` is the object
itself).  The adapter stores `fc.args` as a JSON value. -/
def args_to_json (args : Json) : Json := args

/-- Embedding of the streaming `map` closure of
`GeminiEngine::process_turn`: translation of one successfully decoded
`InteractionEvent` into a `BrainEvent`.  A function-call delta with an
absent `id` yields `id = fc.id.unwrap_or_default()`, the empty string. -/
def translate_stream_event (evt : InteractionEvent) : BrainEvent :=
  match evt with
  | .ContentDelta delta _index =>
    match delta with
    | .Text text => .TextDelta text
    | .ContentDelta text thought =>
      if thought.getD false then .ThoughtDelta text else .TextDelta text
    | .FunctionCall fc => .ToolCall fc.name (fc.id.getD "") (args_to_json fc.args)
    | _ => .Complete none
  | .InteractionComplete interaction => .Complete interaction.id
  | _ => .Complete none

/-!
Conductor, from `src/conductor/mod.rs`.

The conductor is embedded as explicit state passing.  The unbounded
channel of `UserEvent`s consumed during tool approval is a list of input
lines; each per-turn brain stream is a list of `Except String BrainEvent`
items (an `Err` item is the point where `brain_res?` aborts the
conversation); the sequence of `process_turn` results over the turns of
one conversation is a list of such streams, where an `Except.error`
element is a turn whose `process_turn` call itself failed.  Tool
execution (`ToolRegistry::execute`), the environment probe and the Rust
`format!("{:#?}")` debug renderings are external effects, abstracted as
parameters in `ConductorDeps`.
-/

/-- Embedding of `ToolResult` from `src/tools/mod.rs`. -/
structure ToolResult where
  output : Json
  is_error : Bool

/-- Embedding of `SessionState` as built by
`Conductor::get_state_snapshot`. -/
structure SessionState where
  model : String
  thinking_level : String
  streaming : Bool
  memory_enabled : Bool
  dev_mode : Bool
  pwd : String
  git_branch : String

/-- Embedding of `SystemEvent` (conductor to UI), from
`src/conductor/mod.rs` usage. -/
inductive SystemEvent where
  | Text : String → SessionState → SystemEvent
  | Thought : String → SessionState → SystemEvent
  | ToolCall : (name : String) → (args : Json) → (state : SessionState) → SystemEvent
  | RequestApproval : (description : String) → (state : SessionState) → SystemEvent
  | Info : String → SessionState → SystemEvent
  | Error : String → SessionState → SystemEvent
  | Ready : SessionState → SystemEvent
  | Debug : String → SessionState → SystemEvent

/-- Predicate picking out `SystemEvent::Error` items. -/
def SystemEvent.isError : SystemEvent → Bool
  | .Error _ _ => true
  | _ => false

/-- Embedding of `TurnContext` as constructed by
`Conductor::handle_conversation`. -/
structure TurnContext where
  input : InteractionInput
  previous_interaction_id : Option String
  streaming : Bool
  thinking_level : String
  memory_enabled : Bool
  dev_mode : Bool

/-- One buffered tool call `(name, id, args)` from the `tool_calls`
buffer of `Conductor::handle_conversation`. -/
structure BufferedCall where
  name : String
  id : String
  args : Json

/-- Mutable state of the `Conductor` struct (the channel handles and the
trait objects are modelled as explicit arguments elsewhere). -/
structure Conductor where
  previous_interaction_id : Option String
  pending_steering : List String
  model : String
  streaming : Bool
  thinking_level : String
  memory_enabled : Bool
  dev_mode : Bool
  pwd : String
  git_branch : String

/-- Embedding of `Conductor::get_state_snapshot`. -/
def Conductor.get_state_snapshot (c : Conductor) : SessionState :=
  { model := c.model
    thinking_level := c.thinking_level
    streaming := c.streaming
    memory_enabled := c.memory_enabled
    dev_mode := c.dev_mode
    pwd := c.pwd
    git_branch := c.git_branch }

/-- External dependencies of the conductor: the tool registry dispatch,
the environment probe results, and the Rust `format!` renderings used in
UI strings (pure functions of their payloads). -/
structure ConductorDeps where
  tools : String → Json → Except String ToolResult
  envPwd : String
  envGit : String
  fmtJson : Json → String
  fmtCtx : TurnContext → String
  fmtEvent : BrainEvent → String
  fmtResult : ToolResult → String

/-- Embedding of `Conductor::refresh_system_metadata`: refreshes `pwd`
and `git_branch` from the environment probe. -/
def refresh_system_metadata (deps : ConductorDeps) (c : Conductor) : Conductor :=
  { c with pwd := deps.envPwd, git_branch := deps.envGit }

/-- Classification of one input line received while awaiting tool
approval, from the `match input.to_lowercase().as_str()` in
`Conductor::handle_conversation`. -/
inductive ApprovalAction where
  | approve : ApprovalAction
  | reject : ApprovalAction
  | steer : ApprovalAction
deriving DecidableEq, Repr

/-- Embedding of Rust `str::to_lowercase` as a character-wise lowercase
map (agrees with the source on all ASCII input, which covers the approval
tokens). -/
def to_lowercase (s : String) : String := ⟨s.data.map Char.toLower⟩

/-- Embedding of the approval `match`: the line is lowercased (never
trimmed) and compared against the four exact tokens. -/
def classify_approval (input : String) : ApprovalAction :=
  let l := to_lowercase input
  if l = "y" ∨ l = "yes" then .approve
  else if l = "n" ∨ l = "no" then .reject
  else .steer

/-- Embedding of the inner `while let Some(UserEvent::Input(input))` wait
loop for one approval prompt: consumes user input lines until an
approval or rejection token arrives (or the channel closes, leaving
`approved = false`); every other line is buffered as steering, in FIFO
order.  Returns `(approved, steering captured, remaining input lines)`. -/
def await_approval : List String → Bool × List String × List String
  | [] => (false, [], [])
  | input :: rest =>
    match classify_approval input with
    | .approve => (true, [], rest)
    | .reject => (false, [], rest)
    | .steer =>
      let (approved, steers, remaining) := await_approval rest
      (approved, input :: steers, remaining)

/-- Synthesized error payload for a failed tool execution. -/
def tool_error_json (e : String) : Json := Json.obj [("error", Json.str e)]

/-- Synthesized payload for a rejected tool call:
`\x7b"error": "User rejected tool execution."\x7d`. -/
def rejected_json : Json := tool_error_json "User rejected tool execution."

/-- Embedding of one iteration of the `for (name, id, args) in tool_calls`
gate: emit the approval request, wait for the decision (buffering
steering), then execute or synthesize.  Returns the updated conductor
state, the remaining user input lines, the single `FunctionResponse` part
pushed onto `results_parts`, and the UI events emitted. -/
def process_call (deps : ConductorDeps) (c : Conductor) (users : List String)
    (call : BufferedCall) :
    Conductor × List String × InteractionPart × List SystemEvent :=
  let description :=
    "Execute tool \x27" ++ call.name ++ "\x27 with args: " ++ deps.fmtJson call.args
  let askEvent := SystemEvent.RequestApproval description c.get_state_snapshot
  let (approved, steers, remaining) := await_approval users
  let c1 : Conductor := { c with pending_steering := c.pending_steering ++ steers }
  let steerEvents := steers.map fun _ =>
    SystemEvent.Text "[Steering noted. Waiting for tool approval/rejection...]"
      c.get_state_snapshot
  if approved then
    match deps.tools call.name call.args with
    | .ok res =>
      let c2 := refresh_system_metadata deps c1
      let dbg := if c2.dev_mode then
          [SystemEvent.Debug ("Tool Result: " ++ deps.fmtResult res) c2.get_state_snapshot]
        else []
      (c2, remaining,
        .FunctionResponse ⟨some call.id, call.name, res.output⟩,
        askEvent :: steerEvents ++ dbg)
    | .error e =>
      (c1, remaining,
        .FunctionResponse ⟨some call.id, call.name, tool_error_json e⟩,
        askEvent :: steerEvents)
  else
    (c1, remaining,
      .FunctionResponse ⟨some call.id, call.name, rejected_json⟩,
      askEvent :: steerEvents)

/-- Embedding of the whole approval/dispatch gate over the buffered tool
calls, in buffer order.  Returns updated conductor state, remaining user
input, the `results_parts` list, and UI events. -/
def approval_gate (deps : ConductorDeps) :
    Conductor → List String → List BufferedCall →
    Conductor × List String × List InteractionPart × List SystemEvent
  | c, users, [] => (c, users, [], [])
  | c, users, call :: restCalls =>
    let (c1, users1, part, evs) := process_call deps c users call
    let (c2, users2, parts, evs2) := approval_gate deps c1 users1 restCalls
    (c2, users2, part :: parts, evs ++ evs2)

/-- Accumulator for one brain stream: the conductor state, the local
`active_interaction_id`, the buffered `tool_calls`, the
`model_response_parts`, and the UI events emitted so far. -/
structure StreamAcc where
  conductor : Conductor
  active_id : Option String
  tool_calls : List BufferedCall
  model_response_parts : List InteractionPart
  events : List SystemEvent

/-- Embedding of the `match event` body of the stream-consumption loop in
`Conductor::handle_conversation` for one successfully received event. -/
def stream_step (deps : ConductorDeps) (acc : StreamAcc) (event : BrainEvent) : StreamAcc :=
  let snap := acc.conductor.get_state_snapshot
  let dbg := if acc.conductor.dev_mode then
      [SystemEvent.Debug ("Brain Event: " ++ deps.fmtEvent event) snap]
    else []
  match event with
  | .TextDelta text =>
    { acc with
      events := acc.events ++ dbg ++ [SystemEvent.Text text snap]
      model_response_parts := acc.model_response_parts ++ [.Text text] }
  | .ThoughtDelta thought =>
    { acc with events := acc.events ++ dbg ++ [SystemEvent.Thought thought snap] }
  | .ThoughtSignature sig =>
    { acc with
      events := acc.events ++ dbg
      model_response_parts := acc.model_response_parts ++ [.Thought sig ""] }
  | .ToolCall name id args =>
    { acc with
      events := acc.events ++ dbg ++ [SystemEvent.ToolCall name args snap]
      model_response_parts := acc.model_response_parts ++
        [.FunctionCall ⟨some id, name, args, none⟩]
      tool_calls := acc.tool_calls ++ [⟨name, id, args⟩] }
  | .Complete interaction_id =>
    match interaction_id with
    | some id =>
      { acc with
        events := acc.events ++ dbg
        active_id := some id
        conductor :=
          if acc.conductor.memory_enabled then
            { acc.conductor with previous_interaction_id := some id }
          else acc.conductor }
    | none => { acc with events := acc.events ++ dbg }
  | .Error err =>
    { acc with events := acc.events ++ dbg ++ [SystemEvent.Error err snap] }

/-- Embedding of the `while let Some(brain_res) = brain_stream.next()`
loop: items are consumed in order; an `Err` item is where `brain_res?`
returns the error from `handle_conversation`. -/
def consume_stream (deps : ConductorDeps) :
    List (Except String BrainEvent) → StreamAcc → StreamAcc × Option String
  | [], acc => (acc, none)
  | .error e :: _, acc => (acc, some e)
  | .ok event :: rest, acc => consume_stream deps rest (stream_step deps acc event)

/-- Trace of one loop iteration of `Conductor::handle_conversation`: the
`next_input` submitted for this turn, the steering drained at its head,
the `turn_history` contents at the moment the context was built, the
`TurnContext` itself, the model response parts and tool calls collected
from the stream, the stream error if one aborted the turn, the
`results_parts` built by the gate, and the `next_input` value prepared
for the following turn (`none` when the conversation ended or aborted). -/
structure TurnTrace where
  submitted_input : InteractionInput
  drained_steering : List String
  history_sent : List InteractionTurn
  context : TurnContext
  model_response_parts : List InteractionPart
  tool_calls : List BufferedCall
  stream_err : Option String
  results_parts : List InteractionPart
  next_input : Option InteractionInput

/-- Result of a whole conversation: per-turn traces, final conductor
state, UI events, and the error `handle_conversation` returned, if any. -/
structure ConvResult where
  traces : List TurnTrace
  conductor : Conductor
  events : List SystemEvent
  err : Option String

/-- Steering line as pushed into `turn_history`:
`InteractionTurn \x7b role: User, content: from(steer) \x7d`. -/
def user_text_turn (s : String) : InteractionTurn := ⟨.User, contentFromText s⟩

/-- Push of the pending `next_input` into `turn_history` in stateless
replay mode (the `match &next_input` in step 2 of the loop): `Text` and
`Parts` become a `User` turn; a `Turns` value is not pushed. -/
def push_next (hist : List InteractionTurn) : InteractionInput → List InteractionTurn
  | .Text t => hist ++ [⟨.User, contentFromText t⟩]
  | .Parts p => hist ++ [⟨.User, p⟩]
  | .Turns _ => hist

/-- Result of one iteration of the conversation loop: the turn's trace,
the conductor state after the iteration, the follow-up data
`(users, turn_history, active_interaction_id, next_input)` when the loop
continues (`none` when it stops), the UI events, and the error that
aborted the iteration, if any. -/
structure StepResult where
  trace : TurnTrace
  conductor : Conductor
  cont : Option (List String × List InteractionTurn × Option String × InteractionInput)
  events : List SystemEvent
  err : Option String

/-- Embedding of one iteration of the `loop` of
`Conductor::handle_conversation`: drain pending steering into
`turn_history`, build the `TurnContext` (memory-on: `next_input` and the
active id; memory-off: the full replay `Turns` and no id), consume the
turn's stream, capture the model response into the replay history, and
either stop (no tool calls, or an error) or run the approval gate and
prepare the next input. -/
def conv_step (deps : ConductorDeps)
    (turnScript : Except String (List (Except String BrainEvent)))
    (users : List String) (c : Conductor) (hist : List InteractionTurn)
    (aid : Option String) (next : InteractionInput) : StepResult :=
  let drained := c.pending_steering
  let hist1 := hist ++ drained.map user_text_turn
  let c1 : Conductor := { c with pending_steering := [] }
  let hist2 := if c1.memory_enabled then hist1 else push_next hist1 next
  let context : TurnContext :=
    { input := if c1.memory_enabled then next else .Turns hist2
      previous_interaction_id := if c1.memory_enabled then aid else none
      streaming := c1.streaming
      thinking_level := c1.thinking_level
      memory_enabled := c1.memory_enabled
      dev_mode := c1.dev_mode }
  let ctxEvents := if c1.dev_mode then
      [SystemEvent.Debug ("TurnContext Sent: " ++ deps.fmtCtx context)
        c1.get_state_snapshot]
    else []
  match turnScript with
  | .error e =>
    ⟨⟨next, drained, hist2, context, [], [], some e, [], none⟩, c1, none, ctxEvents, some e⟩
  | .ok items =>
    let res := consume_stream deps items ⟨c1, aid, [], [], []⟩
    let acc := res.1
    match res.2 with
    | some e =>
      ⟨⟨next, drained, hist2, context, acc.model_response_parts, acc.tool_calls,
          some e, [], none⟩,
        acc.conductor, none, ctxEvents ++ acc.events, some e⟩
    | none =>
      let hist3 :=
        if !acc.conductor.memory_enabled && !acc.model_response_parts.isEmpty then
          hist2 ++ [⟨.Model, acc.model_response_parts⟩]
        else hist2
      if acc.tool_calls.isEmpty then
        ⟨⟨next, drained, hist2, context, acc.model_response_parts, [], none, [], none⟩,
          acc.conductor, none,
          ctxEvents ++ acc.events ++ [SystemEvent.Ready acc.conductor.get_state_snapshot],
          none⟩
      else
        let g := approval_gate deps acc.conductor users acc.tool_calls
        ⟨⟨next, drained, hist2, context, acc.model_response_parts, acc.tool_calls,
            none, g.2.2.1, some (.Parts g.2.2.1)⟩,
          g.1, some (g.2.1, hist3, acc.active_id, .Parts g.2.2.1),
          ctxEvents ++ acc.events ++ g.2.2.2, none⟩

/-- Embedding of the `loop` of `Conductor::handle_conversation`.  Each
element of `brains` is the result of one `process_turn` call (an error,
or the stream for that turn); the loop runs one iteration per element
and stops early when a turn ends with no tool calls or an error
propagates.  `users` is the channel of input lines consumed by approval
gates; `hist` is `turn_history`; `aid` is `active_interaction_id`;
`next` is `next_input`. -/
def conv_loop (deps : ConductorDeps) :
    List (Except String (List (Except String BrainEvent))) → List String →
    Conductor → List InteractionTurn → Option String → InteractionInput → ConvResult
  | [], _users, c, _hist, _aid, _next => ⟨[], c, [], none⟩
  | turnScript :: brest, users, c, hist, aid, next =>
    let s := conv_step deps turnScript users c hist aid next
    match s.cont with
    | none => ⟨[s.trace], s.conductor, s.events, s.err⟩
    | some (users2, hist3, aid2, next2) =>
      let rest := conv_loop deps brest users2 s.conductor hist3 aid2 next2
      ⟨s.trace :: rest.traces, rest.conductor, s.events ++ rest.events, rest.err⟩

/-- Embedding of `Conductor::handle_conversation`: `turn_history` starts
empty, `active_interaction_id` is seeded from `previous_interaction_id`
iff `memory_enabled`, the first `next_input` is `Text(initial_prompt)`. -/
def handle_conversation (deps : ConductorDeps)
    (brains : List (Except String (List (Except String BrainEvent))))
    (users : List String) (c : Conductor) (initial_prompt : String) : ConvResult :=
  conv_loop deps brains users c []
    (if c.memory_enabled then c.previous_interaction_id else none)
    (.Text initial_prompt)

/-- Embedding of the non-command branch of `Conductor::run`: run the
conversation; on error, emit `SystemEvent::Error` and drop
`previous_interaction_id` before returning to the idle loop. -/
def handle_input (deps : ConductorDeps)
    (brains : List (Except String (List (Except String BrainEvent))))
    (users : List String) (c : Conductor) (prompt : String) :
    Conductor × List SystemEvent :=
  let r := handle_conversation deps brains users c prompt
  match r.err with
  | none => (r.conductor, r.events)
  | some e =>
    ({ r.conductor with previous_interaction_id := none },
      r.events ++ [SystemEvent.Error ("Conversation Error: " ++ e)
        r.conductor.get_state_snapshot])

/-!
Claim theorems.
-/

/-- Fixture client for closed evaluations. -/
def chittiClient : Client :=
  ⟨"key", "gemini-1.5-flash", "https://generativelanguage.googleapis.com"⟩

/-- Claim C8, counterexample: calling `agent` and then `model` on the
request builder leaves BOTH fields set — after `model(m)` the request
still has `agent = Some(a)`, refuting "after calling model(m) the request
has ... agent = None ... regardless of which setter was called earlier". -/
theorem model_after_agent_keeps_agent :
    (((InteractionRequestBuilder.new chittiClient (.Text "hi")).agent "agent-1").model
        "gemini-2.0").request.agent = some "agent-1" ∧
    (((InteractionRequestBuilder.new chittiClient (.Text "hi")).agent "agent-1").model
        "gemini-2.0").request.model = some "gemini-2.0" ∧
    (((InteractionRequestBuilder.new chittiClient (.Text "hi")).agent "agent-1").model
        "gemini-2.0").request.agent ≠ none := by
  refine ⟨rfl, rfl, ?_⟩
  simp [InteractionRequestBuilder.new, InteractionRequestBuilder.agent,
    InteractionRequestBuilder.model]

/-- Claim C8, amended: `agent(a)` sets `agent = a` and clears `model`
regardless of earlier calls, but `model(m)` only sets `model = m` and
leaves `agent` untouched, so the mutual exclusion is enforced in one
direction only. -/
theorem agent_clears_model_but_model_keeps_agent :
    (∀ (b : InteractionRequestBuilder) (a : String),
      (b.agent a).request.agent = some a ∧ (b.agent a).request.model = none) ∧
    (∀ (b : InteractionRequestBuilder) (m : String),
      (b.model m).request.model = some m ∧
        (b.model m).request.agent = b.request.agent) := by
  exact ⟨fun b a => ⟨rfl, rfl⟩, fun b m => ⟨rfl, rfl⟩⟩

/-- Claim C10: while awaiting tool approval an input line approves iff
its lowercased form is exactly "y" or "yes", rejects iff exactly "n" or
"no", and is never whitespace-trimmed: "y " with a trailing space is
classified as steering, and in the wait loop it is buffered as steering
while the following "yes" answers the prompt. -/
theorem approval_classification_exact_tokens :
    (∀ s : String,
      classify_approval s = .approve ↔ (to_lowercase s = "y" ∨ to_lowercase s = "yes")) ∧
    (∀ s : String,
      classify_approval s = .reject ↔ (to_lowercase s = "n" ∨ to_lowercase s = "no")) ∧
    classify_approval "y " = .steer ∧
    await_approval ["y ", "yes"] = (true, ["y "], []) := by
  refine ⟨?_, ?_, ?_, ?_⟩
  · intro s
    unfold classify_approval
    by_cases h : to_lowercase s = "y" ∨ to_lowercase s = "yes"
    · simp [h]
    · by_cases h2 : to_lowercase s = "n" ∨ to_lowercase s = "no" <;>
        simp [h, h2]
  · intro s
    unfold classify_approval
    by_cases h : to_lowercase s = "y" ∨ to_lowercase s = "yes"
    · rcases h with h | h <;> simp [h]
    · by_cases h2 : to_lowercase s = "n" ∨ to_lowercase s = "no" <;>
        simp [h, h2]
  · decide
  · show await_approval ["y ", "yes"] = (true, ["y "], [])
    unfold await_approval
    have h1 : classify_approval "y " = .steer := by decide
    have h2 : classify_approval "yes" = .approve := by decide
    rw [h1]
    unfold await_approval
    rw [h2]

/-- Helper: the concatenated prefix test used by the SSE decoder. -/
theorem dataPrefix_isPrefixOf_append (d : List Char) :
    dataPrefix.isPrefixOf (dataPrefix ++ d) = true := by
  rw [List.isPrefixOf_iff_prefix]
  exact List.prefix_append _ _

/-- Helper: stripping the `"data: "` prefix recovers the payload. -/
theorem dataPrefix_drop_append (d : List Char) :
    (dataPrefix ++ d).drop dataPrefix.length = d :=
  List.drop_left _ _

/-- Claim C6: the SSE decoder yields one parsed event per `data:` line
with a valid payload, terminates at `data: [DONE]`, ignores lines not
beginning with `data: `, skips (without aborting or yielding an error
item) any `data:` line whose payload fails to parse, and hence a stream
with one malformed data line between two valid events yields exactly the
two valid events. -/
theorem sse_decoder_tolerant :
    (∀ (parse : List Char → Option InteractionEvent) (d : List Char) rest e,
      d ≠ doneMarker → parse d = some e →
      parse_sse_stream parse ((dataPrefix ++ d) :: rest) =
        e :: parse_sse_stream parse rest) ∧
    (∀ (parse : List Char → Option InteractionEvent) rest,
      parse_sse_stream parse ((dataPrefix ++ doneMarker) :: rest) = []) ∧
    (∀ (parse : List Char → Option InteractionEvent) (line : List Char) rest,
      dataPrefix.isPrefixOf line = false →
      parse_sse_stream parse (line :: rest) = parse_sse_stream parse rest) ∧
    (∀ (parse : List Char → Option InteractionEvent) (d : List Char) rest,
      d ≠ doneMarker → parse d = none →
      parse_sse_stream parse ((dataPrefix ++ d) :: rest) =
        parse_sse_stream parse rest) ∧
    (∀ (parse : List Char → Option InteractionEvent) (d1 bad d2 : List Char) e1 e2,
      d1 ≠ doneMarker → bad ≠ doneMarker → d2 ≠ doneMarker →
      parse d1 = some e1 → parse bad = none → parse d2 = some e2 →
      parse_sse_stream parse
        [dataPrefix ++ d1, dataPrefix ++ bad, dataPrefix ++ d2,
          dataPrefix ++ doneMarker] = [e1, e2]) := by
  have hvalid : ∀ (parse : List Char → Option InteractionEvent) (d : List Char) rest e,
      d ≠ doneMarker → parse d = some e →
      parse_sse_stream parse ((dataPrefix ++ d) :: rest) =
        e :: parse_sse_stream parse rest := by
    intro parse d rest e hd hp
    simp [parse_sse_stream, dataPrefix_isPrefixOf_append, dataPrefix_drop_append, hd, hp]
  have hdone : ∀ (parse : List Char → Option InteractionEvent) rest,
      parse_sse_stream parse ((dataPrefix ++ doneMarker) :: rest) = [] := by
    intro parse rest
    simp [parse_sse_stream, dataPrefix_isPrefixOf_append, dataPrefix_drop_append]
  have hskipline : ∀ (parse : List Char → Option InteractionEvent) (line : List Char) rest,
      dataPrefix.isPrefixOf line = false →
      parse_sse_stream parse (line :: rest) = parse_sse_stream parse rest := by
    intro parse line rest h
    simp [parse_sse_stream, h]
  have hbad : ∀ (parse : List Char → Option InteractionEvent) (d : List Char) rest,
      d ≠ doneMarker → parse d = none →
      parse_sse_stream parse ((dataPrefix ++ d) :: rest) =
        parse_sse_stream parse rest := by
    intro parse d rest hd hp
    simp [parse_sse_stream, dataPrefix_isPrefixOf_append, dataPrefix_drop_append, hd, hp]
  refine ⟨hvalid, hdone, hskipline, hbad, ?_⟩
  intro parse d1 bad d2 e1 e2 h1 hb h2 hp1 hpb hp2
  rw [hvalid parse d1 _ e1 h1 hp1, hbad parse bad _ hb hpb,
    hvalid parse d2 _ e2 h2 hp2, hdone]

/-- Demo events for the tolerance scenario: a text delta "A" and the
completion of interaction "x". -/
def demoEventA : InteractionEvent := .ContentDelta (.Text "A") none

/-- Demo completion event for the tolerance scenario. -/
def demoEventX : InteractionEvent := .InteractionComplete ⟨some "x", "m", "ok", []⟩

/-- Demo stand-in for `serde_json::from_str::<InteractionEvent>`: payload
"1" decodes to the text delta, payload "2" to the completion, everything
else is malformed. -/
def demoSSEParse : List Char → Option InteractionEvent := fun data =>
  if data = "1".data then some demoEventA
  else if data = "2".data then some demoEventX
  else none

/-- Witness for claim C6 at a concrete stream: one malformed `data:` line
between two valid events yields exactly the two valid events. -/
theorem sse_decoder_tolerant_witness :
    parse_sse_stream demoSSEParse
      [dataPrefix ++ "1".data, dataPrefix ++ "oops".data, dataPrefix ++ "2".data,
        dataPrefix ++ doneMarker] = [demoEventA, demoEventX] :=
  sse_decoder_tolerant.2.2.2.2 demoSSEParse "1".data "oops".data "2".data demoEventA demoEventX
    (by decide) (by decide) (by decide) rfl rfl rfl

/-- Classification of a wire outcome as retryable by the send loop: a
network error, or a non-success response whose status is 429, 500 or
503. -/
def outcome_retryable : SendOutcome → Bool
  | .netErr => true
  | .ok s => !(status_success s) && retryable_status s

theorem sendAux_last_ok {wire : Nat → SendOutcome} {cloneable : Bool} {attempt backoff s : Nat}
    (hw : wire attempt = .ok s) :
    sendAux wire cloneable 0 attempt backoff true = ⟨1, [], .ok s⟩ := by
  simp [sendAux, hw]

theorem sendAux_last_err {wire : Nat → SendOutcome} {cloneable : Bool} {attempt backoff : Nat}
    (hw : wire attempt = .netErr) :
    sendAux wire cloneable 0 attempt backoff true = ⟨1, [], .error .http⟩ := by
  simp [sendAux, hw]

theorem sendAux_success {wire : Nat → SendOutcome} {cloneable : Bool}
    {r attempt backoff s : Nat} (hw : wire attempt = .ok s)
    (hs : status_success s = true) :
    sendAux wire cloneable (r + 1) attempt backoff true = ⟨1, [], .ok s⟩ := by
  simp [sendAux, hw, hs]

theorem sendAux_retry_status {wire : Nat → SendOutcome} {r attempt backoff s : Nat}
    (hw : wire attempt = .ok s) (hs : status_success s = false)
    (hr : retryable_status s = true) :
    sendAux wire true (r + 1) attempt backoff true =
      ⟨(sendAux wire true r (attempt + 1) (backoff * 2) true).sends + 1,
        backoff :: (sendAux wire true r (attempt + 1) (backoff * 2) true).sleeps,
        (sendAux wire true r (attempt + 1) (backoff * 2) true).result⟩ := by
  simp [sendAux, hw, hs, hr]

theorem sendAux_no_retry_status {wire : Nat → SendOutcome} {cloneable : Bool}
    {r attempt backoff s : Nat} (hw : wire attempt = .ok s)
    (hs : status_success s = false)
    (hcr : (cloneable && retryable_status s) = false) :
    sendAux wire cloneable (r + 1) attempt backoff true = ⟨1, [], .ok s⟩ := by
  simp [sendAux, hw, hs, hcr]

theorem sendAux_retry_net {wire : Nat → SendOutcome} {r attempt backoff : Nat}
    (hw : wire attempt = .netErr) :
    sendAux wire true (r + 1) attempt backoff true =
      ⟨(sendAux wire true r (attempt + 1) (backoff * 2) true).sends + 1,
        backoff :: (sendAux wire true r (attempt + 1) (backoff * 2) true).sleeps,
        (sendAux wire true r (attempt + 1) (backoff * 2) true).result⟩ := by
  simp [sendAux, hw]

theorem sendAux_net_noclone {wire : Nat → SendOutcome} {r attempt backoff : Nat}
    (hw : wire attempt = .netErr) :
    sendAux wire false (r + 1) attempt backoff true = ⟨1, [], .error .http⟩ := by
  simp [sendAux, hw]

theorem sendAux_spec (wire : Nat → SendOutcome) :
    ∀ (r attempt backoff : Nat),
      (sendAux wire true r attempt backoff true).sends ≤ r + 1 ∧
      (sendAux wire true r attempt backoff true).sleeps.length + 1 =
        (sendAux wire true r attempt backoff true).sends ∧
      (∀ i (h : i < (sendAux wire true r attempt backoff true).sleeps.length),
        (sendAux wire true r attempt backoff true).sleeps.get ⟨i, h⟩ = backoff * 2 ^ i) ∧
      (∀ i, i < (sendAux wire true r attempt backoff true).sleeps.length →
        outcome_retryable (wire (attempt + i)) = true) := by
  intro r
  induction r with
  | zero =>
    intro attempt backoff
    cases hw : wire attempt
    · rw [sendAux_last_ok hw]; simp
    · rw [sendAux_last_err hw]; simp
  | succ n ih =>
    intro attempt backoff
    cases hw : wire attempt with
    | ok s =>
      by_cases hs : status_success s
      · rw [sendAux_success hw hs]; simp
      · by_cases hr : retryable_status s
        · rw [sendAux_retry_status hw (Bool.not_eq_true _ ▸ hs) hr]
          obtain ⟨ihs, ihl, ihget, ihret⟩ := ih (attempt + 1) (backoff * 2)
          refine ⟨by simpa using Nat.succ_le_succ ihs, ?_, ?_, ?_⟩
          · simpa using ihl
          · intro i h
            match i with
            | 0 => simp
            | Nat.succ j =>
              simp only [List.get_cons_succ]
              rw [ihget j (by simpa using h), pow_succ]
              ring
          · intro i h
            match i with
            | 0 =>
              simpa [outcome_retryable, hw, hs] using hr
            | Nat.succ j =>
              have hj := ihret j (by simpa using h)
              have harith : attempt + (j + 1) = attempt + 1 + j := by omega
              rw [harith]
              exact hj
        · rw [sendAux_no_retry_status hw (Bool.not_eq_true _ ▸ hs)
            (by simp [Bool.not_eq_true _ ▸ hr] : (true && retryable_status s) = false)]
          simp
    | netErr =>
      rw [sendAux_retry_net hw]
      obtain ⟨ihs, ihl, ihget, ihret⟩ := ih (attempt + 1) (backoff * 2)
      refine ⟨by simpa using Nat.succ_le_succ ihs, ?_, ?_, ?_⟩
      · simpa using ihl
      · intro i h
        match i with
        | 0 => simp
        | Nat.succ j =>
          simp only [List.get_cons_succ]
          rw [ihget j (by simpa using h), pow_succ]
          ring
      · intro i h
        match i with
        | 0 => simp [outcome_retryable, hw]
        | Nat.succ j =>
          have hj := ihret j (by simpa using h)
          have harith : attempt + (j + 1) = attempt + 1 + j := by omega
          rw [harith]
          exact hj

theorem sendAux_noclone (wire : Nat → SendOutcome) :
    ∀ (r attempt backoff : Nat),
      (sendAux wire false r attempt backoff true).sends = 1 ∧
      (sendAux wire false r attempt backoff true).sleeps = [] := by
  intro r attempt backoff
  cases r with
  | zero =>
    cases hw : wire attempt
    · rw [sendAux_last_ok hw]; exact ⟨rfl, rfl⟩
    · rw [sendAux_last_err hw]; exact ⟨rfl, rfl⟩
  | succ n =>
    cases hw : wire attempt with
    | ok s =>
      by_cases hs : status_success s
      · rw [sendAux_success hw hs]; exact ⟨rfl, rfl⟩
      · rw [sendAux_no_retry_status hw (Bool.not_eq_true _ ▸ hs) (by simp)]
        exact ⟨rfl, rfl⟩
    | netErr =>
      rw [sendAux_net_noclone hw]; exact ⟨rfl, rfl⟩

/-- Claim C4, counterexample: with a cloneable request and persistent
network failure, `send` makes FOUR attempts (one initial plus
`max_retries = 3` retries, since `is_last_attempt` is
`attempt > max_retries`), refuting "at most 3 send attempts are made in
total".  The backoff sleeps are 1s, 2s, 4s. -/
theorem send_four_attempts_on_persistent_failure :
    RequestBuilder.send (fun _ => SendOutcome.netErr) true =
      ⟨4, [1, 2, 4], .error .http⟩ ∧
    ¬ (RequestBuilder.send (fun _ => SendOutcome.netErr) true).sends ≤ 3 := by
  constructor
  · rfl
  · intro h
    have : (4 : Nat) ≤ 3 := by
      have he : RequestBuilder.send (fun _ => SendOutcome.netErr) true =
          ⟨4, [1, 2, 4], .error .http⟩ := rfl
      rw [he] at h
      exact h
    omega

/-- Claim C4, amended: at most 4 send attempts in total (one initial plus
up to 3 retries); every retry is preceded by exactly one sleep; the sleep
before retry i is 2^(i-1) seconds (1s, 2s, 4s); a retry happens only
after a network error or a response with retryable status (429, 500,
503); a first response with a non-retryable non-success status is
returned immediately after a single attempt; and a request whose body
cannot be cloned is sent exactly once. -/
theorem send_retry_policy (wire : Nat → SendOutcome) (cloneable : Bool) :
    (RequestBuilder.send wire cloneable).sends ≤ 4 ∧
    (RequestBuilder.send wire cloneable).sleeps.length + 1 =
      (RequestBuilder.send wire cloneable).sends ∧
    (∀ i (h : i < (RequestBuilder.send wire cloneable).sleeps.length),
      (RequestBuilder.send wire cloneable).sleeps.get ⟨i, h⟩ = 2 ^ i) ∧
    (∀ i, i < (RequestBuilder.send wire cloneable).sleeps.length →
      outcome_retryable (wire (1 + i)) = true) ∧
    (∀ s, wire 1 = .ok s → status_success s = false → retryable_status s = false →
      RequestBuilder.send wire cloneable = ⟨1, [], .ok s⟩) ∧
    (cloneable = false → (RequestBuilder.send wire cloneable).sends = 1) := by
  cases cloneable with
  | true =>
    simp only [RequestBuilder.send]
    obtain ⟨hs, hl, hget, hret⟩ := sendAux_spec wire 3 1 1
    refine ⟨by omega, hl, ?_, hret, ?_, by intro h; cases h⟩
    · intro i h
      have := hget i h
      simpa using this
    · intro s hw hsucc hretry
      exact sendAux_no_retry_status hw hsucc (by simp [hretry])
  | false =>
    simp only [RequestBuilder.send]
    obtain ⟨hs, hl⟩ := sendAux_noclone wire 3 1 1
    refine ⟨by omega, by simp [hl, hs], ?_, ?_, ?_, fun _ => hs⟩
    · intro i h
      rw [hl] at h
      cases h
    · intro i h
      rw [hl] at h
      cases h
    · intro s hw hsucc hretry
      exact sendAux_no_retry_status hw hsucc (by simp)

/-- Demo wire for the retry-policy witness: attempts 1 and 2 receive
status 429, attempt 3 succeeds with 200. -/
def wire429demo : Nat → SendOutcome := fun n => if n < 3 then .ok 429 else .ok 200

/-- Witness for claim C4 at a concrete wire: two 429 responses then a
200 gives three attempts, sleeps [1, 2], and the retried outcome was
retryable. -/
theorem send_retry_policy_witness :
    (RequestBuilder.send wire429demo true).sends ≤ 4 ∧
    outcome_retryable (wire429demo (1 + 0)) = true ∧
    (RequestBuilder.send wire429demo true).sleeps.length + 1 =
      (RequestBuilder.send wire429demo true).sends ∧
    RequestBuilder.send wire429demo true = ⟨3, [1, 2], .ok 200⟩ := by
  refine ⟨(send_retry_policy wire429demo true).1, ?_,
    (send_retry_policy wire429demo true).2.1, rfl⟩
  exact (send_retry_policy wire429demo true).2.2.2.1 0 (by decide)

/-- Fixture dependencies for closed conductor evaluations: every tool
call succeeds with a `null` output. -/
def demoDeps : ConductorDeps :=
  { tools := fun _ _ => .ok ⟨Json.null, false⟩
    envPwd := "/work"
    envGit := "main"
    fmtJson := fun _ => "json"
    fmtCtx := fun _ => "ctx"
    fmtEvent := fun _ => "event"
    fmtResult := fun _ => "result" }

/-- Fixture conductor state mirroring `Conductor::new` defaults (with the
requested memory mode and `dev_mode` off). -/
def demoConductor (mem : Bool) : Conductor :=
  { previous_interaction_id := none
    pending_steering := []
    model := "test-model"
    streaming := true
    thinking_level := "high"
    memory_enabled := mem
    dev_mode := false
    pwd := "/work"
    git_branch := "main" }

/-- Fixture brain script from the repository's own `ToolMockBrain`: turn 1
emits one tool call then completes with `id_1`; turn 2 emits text and
completes with `id_2`. -/
def toolBrains : List (Except String (List (Except String BrainEvent))) :=
  [ .ok [.ok (.ToolCall "test_tool" "call_1" (Json.obj [])), .ok (.Complete (some "id_1"))],
    .ok [.ok (.TextDelta "ok"), .ok (.Complete (some "id_2"))] ]

/-- Claim C9: a provider function-call delta with an absent `id` is
normalized by the adapter to a `ToolCall` whose id is the empty string;
the conductor's synthesized `FunctionResponse` for any buffered call
carries `call_id = Some(call.id)` — hence `Some("")` for an id-less call;
and when a turn buffers two id-less calls, both synthesized responses
carry the same `call_id = Some("")`, so pairing by id is not injective. -/
theorem idless_call_maps_to_empty_id :
    (∀ (name : String) (args : Json) (ts : Option String) (idx : Option Nat),
      translate_stream_event
          (.ContentDelta (.FunctionCall ⟨none, name, args, ts⟩) idx) =
        .ToolCall name "" (args_to_json args)) ∧
    (∀ (deps : ConductorDeps) (c : Conductor) (users : List String) (call : BufferedCall),
      ∃ v, (process_call deps c users call).2.2.1 =
        .FunctionResponse ⟨some call.id, call.name, v⟩) ∧
    ((approval_gate demoDeps (demoConductor true) ["y", "y"]
        [⟨"tool_a", "", Json.null⟩, ⟨"tool_b", "", Json.null⟩]).2.2.1 =
      [.FunctionResponse ⟨some "", "tool_a", Json.null⟩,
        .FunctionResponse ⟨some "", "tool_b", Json.null⟩]) := by
  refine ⟨fun name args ts idx => rfl, ?_, rfl⟩
  intro deps c users call
  unfold process_call
  rcases await_approval users with ⟨approved, steers, remaining⟩
  cases approved with
  | false => exact ⟨rejected_json, rfl⟩
  | true =>
    rcases htools : deps.tools call.name call.args with e | res
    · exact ⟨tool_error_json e, by simp [htools]⟩
    · exact ⟨res.output, by simp [htools]⟩

/-- Claim C7: a rejection token ("n"/"no", case-insensitive) makes the
conductor synthesize a `FunctionResponse` whose result JSON is exactly
the user-rejection error object, without executing the tool (the result
is independent of the tool registry), and that response is submitted in
the next turn's input (shown on the repository's own mock-brain
scenario). -/
theorem rejection_synthesizes_error_response :
    rejected_json = Json.obj [("error", Json.str "User rejected tool execution.")] ∧
    classify_approval "n" = .reject ∧ classify_approval "N" = .reject ∧
    classify_approval "no" = .reject ∧ classify_approval "No" = .reject ∧
    (∀ (deps : ConductorDeps) (c : Conductor) (users : List String)
        (call : BufferedCall) (u : String),
      classify_approval u = .reject →
      (process_call deps c (u :: users) call).2.2.1 =
        .FunctionResponse ⟨some call.id, call.name, rejected_json⟩ ∧
      (∀ t2 : String → Json → Except String ToolResult,
        process_call { deps with tools := t2 } c (u :: users) call =
          process_call deps c (u :: users) call)) ∧
    ((handle_conversation demoDeps toolBrains ["n"] (demoConductor true) "start").traces.map
        (fun t => t.next_input)) =
      [some (.Parts [.FunctionResponse ⟨some "call_1", "test_tool", rejected_json⟩]), none] ∧
    ((handle_conversation demoDeps toolBrains ["n"] (demoConductor true) "start").traces.map
        (fun t => t.context.input)) =
      [.Text "start", .Parts [.FunctionResponse ⟨some "call_1", "test_tool", rejected_json⟩]] := by
  refine ⟨rfl, by decide, by decide, by decide, by decide, ?_, rfl, rfl⟩
  intro deps c users call u hu
  constructor
  · unfold process_call
    simp [await_approval, hu]
  · intro t2
    unfold process_call
    simp [await_approval, hu]

/-- Witness for claim C7 at a concrete rejected call: input "n" yields
the synthesized rejection response for call `call_1`. -/
theorem rejection_synthesizes_error_response_witness :
    classify_approval "n" = .reject ∧
    (process_call demoDeps (demoConductor true) ["n"] ⟨"test_tool", "call_1", Json.null⟩).2.2.1 =
      .FunctionResponse ⟨some "call_1", "test_tool", rejected_json⟩ := by
  refine ⟨by decide, ?_⟩
  exact (rejection_synthesizes_error_response.2.2.2.2.2.1 demoDeps (demoConductor true) []
    ⟨"test_tool", "call_1", Json.null⟩ "n" (by decide)).1

/-- Claim C5: when `handle_conversation` returns an error (a failed
`process_turn` or an `Err` item in the brain stream, e.g. a transport
error), the run loop emits a `SystemEvent::Error` and clears
`previous_interaction_id` before waiting for the next user event. -/
theorem conversation_error_drops_interaction_id (deps : ConductorDeps)
    (brains : List (Except String (List (Except String BrainEvent))))
    (users : List String) (c : Conductor) (prompt : String) (e : String)
    (herr : (handle_conversation deps brains users c prompt).err = some e) :
    (handle_input deps brains users c prompt).1.previous_interaction_id = none ∧
    (handle_input deps brains users c prompt).2 =
      (handle_conversation deps brains users c prompt).events ++
        [SystemEvent.Error ("Conversation Error: " ++ e)
          (handle_conversation deps brains users c prompt).conductor.get_state_snapshot] ∧
    ∃ ev ∈ (handle_input deps brains users c prompt).2, ev.isError = true := by
  refine ⟨?_, ?_, ?_⟩
  · simp only [handle_input, herr]
  · simp only [handle_input, herr]
  · simp only [handle_input, herr]
    refine ⟨SystemEvent.Error ("Conversation Error: " ++ e)
      (handle_conversation deps brains users c prompt).conductor.get_state_snapshot, ?_, rfl⟩
    simp

/-- Fixture brain script whose only turn streams a text delta and then a
transport error. -/
def errBrains : List (Except String (List (Except String BrainEvent))) :=
  [.ok [.ok (.TextDelta "partial"), .error "transport: connection reset"]]

/-- Witness for claim C5: a turn that ends in a transport error leaves
`previous_interaction_id` null on return to the idle loop. -/
theorem conversation_error_drops_interaction_id_witness :
    (handle_conversation demoDeps errBrains [] (demoConductor true) "hi").err =
      some "transport: connection reset" ∧
    (handle_input demoDeps errBrains [] (demoConductor true) "hi").1.previous_interaction_id
      = none := by
  refine ⟨rfl, ?_⟩
  exact (conversation_error_drops_interaction_id demoDeps errBrains [] (demoConductor true)
    "hi" "transport: connection reset" rfl).1

/-!
Loop invariants of `Conductor::handle_conversation`, used for the
function-call/response pairing and the stateless-replay claims.
-/

/-- Helper: every `FunctionResponse` part synthesized by one gate
iteration carries the buffered call's id and name. -/
theorem process_call_part_shape (deps : ConductorDeps) (c : Conductor) (users : List String)
    (call : BufferedCall) :
    ∃ v, (process_call deps c users call).2.2.1 =
      .FunctionResponse ⟨some call.id, call.name, v⟩ := by
  unfold process_call
  rcases await_approval users with ⟨approved, steers, remaining⟩
  cases approved with
  | false => exact ⟨rejected_json, rfl⟩
  | true =>
    rcases htools : deps.tools call.name call.args with e | res
    · exact ⟨tool_error_json e, by simp [htools]⟩
    · exact ⟨res.output, by simp [htools]⟩

theorem process_call_memory (deps : ConductorDeps) (c : Conductor) (users : List String)
    (call : BufferedCall) :
    (process_call deps c users call).1.memory_enabled = c.memory_enabled := by
  unfold process_call
  rcases await_approval users with ⟨approved, steers, remaining⟩
  cases approved with
  | false => rfl
  | true =>
    rcases htools : deps.tools call.name call.args with e | res
    · simp [htools]
    · simp [htools, refresh_system_metadata]

theorem approval_gate_memory (deps : ConductorDeps) :
    ∀ (calls : List BufferedCall) (c : Conductor) (users : List String),
    (approval_gate deps c users calls).1.memory_enabled = c.memory_enabled := by
  intro calls
  induction calls with
  | nil => intro c users; rfl
  | cons call rest ih =>
    intro c users
    unfold approval_gate
    rcases hpc : process_call deps c users call with ⟨c1, users1, part, evs⟩
    have h1 : c1.memory_enabled = c.memory_enabled := by
      have := process_call_memory deps c users call
      rw [hpc] at this
      exact this
    rw [ih c1 users1]
    exact h1

theorem approval_gate_results (deps : ConductorDeps) :
    ∀ (calls : List BufferedCall) (c : Conductor) (users : List String),
    ((approval_gate deps c users calls).2.2.1).length = calls.length ∧
    (∀ j (call : BufferedCall), calls.get? j = some call → ∃ v,
      ((approval_gate deps c users calls).2.2.1).get? j =
        some (.FunctionResponse ⟨some call.id, call.name, v⟩)) := by
  intro calls
  induction calls with
  | nil =>
    intro c users
    refine ⟨rfl, fun j call h => ?_⟩
    simp at h
  | cons call rest ih =>
    intro c users
    unfold approval_gate
    rcases hpc : process_call deps c users call with ⟨c1, users1, part, evs⟩
    obtain ⟨v, hv⟩ := process_call_part_shape deps c users call
    rw [hpc] at hv
    simp only [] at hv
    obtain ⟨ihlen, ihget⟩ := ih c1 users1
    constructor
    · simp [ihlen]
    · intro j cl hcl
      match j with
      | 0 =>
        simp only [List.get?] at hcl
        injection hcl with hcl
        subst hcl
        exact ⟨v, by simp [hv]⟩
      | Nat.succ k =>
        obtain ⟨w, hw⟩ := ihget k cl (by simpa using hcl)
        exact ⟨w, by simpa using hw⟩

theorem stream_step_memory (deps : ConductorDeps) (acc : StreamAcc) (ev : BrainEvent) :
    (stream_step deps acc ev).conductor.memory_enabled = acc.conductor.memory_enabled := by
  cases ev with
  | TextDelta t => rfl
  | ThoughtDelta t => rfl
  | ThoughtSignature s => rfl
  | ToolCall n i a => rfl
  | Complete oid =>
    cases oid with
    | some id =>
      by_cases h : acc.conductor.memory_enabled <;> simp [stream_step, h]
    | none => rfl
  | Error e => rfl

theorem consume_stream_memory (deps : ConductorDeps) :
    ∀ (items : List (Except String BrainEvent)) (acc : StreamAcc),
    (consume_stream deps items acc).1.conductor.memory_enabled =
      acc.conductor.memory_enabled := by
  intro items
  induction items with
  | nil => intro acc; rfl
  | cons item rest ih =>
    intro acc
    cases item with
    | error e => rfl
    | ok ev =>
      show (consume_stream deps rest (stream_step deps acc ev)).1.conductor.memory_enabled =
        acc.conductor.memory_enabled
      rw [ih (stream_step deps acc ev), stream_step_memory]

/-- Spec description of the `turn_history` contents at the moment a
`TurnContext` is built. -/
def sent_history (mem : Bool) (hist : List InteractionTurn) (steering : List String)
    (next : InteractionInput) : List InteractionTurn :=
  let h1 := hist ++ steering.map user_text_turn
  if mem then h1 else push_next h1 next

theorem conv_step_trace_base (deps : ConductorDeps)
    (turnScript : Except String (List (Except String BrainEvent)))
    (users : List String) (c : Conductor) (hist : List InteractionTurn)
    (aid : Option String) (next : InteractionInput) :
    (conv_step deps turnScript users c hist aid next).trace.submitted_input = next ∧
    (conv_step deps turnScript users c hist aid next).trace.drained_steering =
      c.pending_steering ∧
    (conv_step deps turnScript users c hist aid next).trace.history_sent =
      sent_history c.memory_enabled hist c.pending_steering next ∧
    (conv_step deps turnScript users c hist aid next).trace.context =
      { input := if c.memory_enabled then next
          else .Turns (sent_history c.memory_enabled hist c.pending_steering next)
        previous_interaction_id := if c.memory_enabled then aid else none
        streaming := c.streaming
        thinking_level := c.thinking_level
        memory_enabled := c.memory_enabled
        dev_mode := c.dev_mode } := by
  cases turnScript with
  | error e => exact ⟨rfl, rfl, by simp [conv_step, sent_history], by simp [conv_step, sent_history]⟩
  | ok items =>
    unfold conv_step
    simp only []
    rcases hres : (consume_stream deps items
        ⟨{ c with pending_steering := [] }, aid, [], [], []⟩).2 with _ | e
    · by_cases htc : (consume_stream deps items
          ⟨{ c with pending_steering := [] }, aid, [], [], []⟩).1.tool_calls.isEmpty <;>
        simp [hres, htc, sent_history]
    · simp [hres, sent_history]

theorem conv_loop_head_cons (deps : ConductorDeps)
    (ts : Except String (List (Except String BrainEvent)))
    (brest : List (Except String (List (Except String BrainEvent))))
    (users : List String) (c : Conductor) (hist : List InteractionTurn)
    (aid : Option String) (next : InteractionInput) :
    (conv_loop deps (ts :: brest) users c hist aid next).traces.head? =
      some (conv_step deps ts users c hist aid next).trace := by
  unfold conv_loop
  rcases hc : (conv_step deps ts users c hist aid next).cont with _ | ⟨u2, h3, a2, n2⟩ <;>
    simp [hc]

theorem conv_step_results (deps : ConductorDeps)
    (turnScript : Except String (List (Except String BrainEvent)))
    (users : List String) (c : Conductor) (hist : List InteractionTurn)
    (aid : Option String) (next : InteractionInput)
    (hse : (conv_step deps turnScript users c hist aid next).trace.stream_err = none)
    (htc : (conv_step deps turnScript users c hist aid next).trace.tool_calls ≠ []) :
    (conv_step deps turnScript users c hist aid next).trace.results_parts.length =
      (conv_step deps turnScript users c hist aid next).trace.tool_calls.length ∧
    (∀ j (call : BufferedCall),
      (conv_step deps turnScript users c hist aid next).trace.tool_calls.get? j = some call →
      ∃ v, (conv_step deps turnScript users c hist aid next).trace.results_parts.get? j =
        some (.FunctionResponse ⟨some call.id, call.name, v⟩)) ∧
    (conv_step deps turnScript users c hist aid next).trace.next_input =
      some (.Parts (conv_step deps turnScript users c hist aid next).trace.results_parts) := by
  cases turnScript with
  | error e => simp [conv_step] at hse
  | ok items =>
    unfold conv_step at hse htc ⊢
    simp only [] at hse htc ⊢
    revert hse htc
    generalize hres : consume_stream deps items
        ⟨{ c with pending_steering := [] }, aid, [], [], []⟩ = p
    obtain ⟨acc, serr⟩ := p
    intro hse htc
    cases serr with
    | some e => simp at hse
    | none =>
      by_cases hempty : acc.tool_calls.isEmpty
      · simp only [hempty, if_true] at htc
        exact absurd rfl htc
      · simp only [hempty, if_false] at hse htc ⊢
        obtain ⟨hlen, hget⟩ := approval_gate_results deps acc.tool_calls acc.conductor users
        exact ⟨hlen, hget, rfl⟩

theorem conv_step_cont (deps : ConductorDeps)
    (turnScript : Except String (List (Except String BrainEvent)))
    (users : List String) (c : Conductor) (hist : List InteractionTurn)
    (aid : Option String) (next : InteractionInput)
    (users2 : List String) (hist3 : List InteractionTurn) (aid2 : Option String)
    (next2 : InteractionInput)
    (hc : (conv_step deps turnScript users c hist aid next).cont =
      some (users2, hist3, aid2, next2)) :
    (conv_step deps turnScript users c hist aid next).conductor.memory_enabled =
      c.memory_enabled ∧
    next2 = .Parts (conv_step deps turnScript users c hist aid next).trace.results_parts ∧
    (conv_step deps turnScript users c hist aid next).trace.next_input = some next2 ∧
    hist3 =
      (if (conv_step deps turnScript users c hist aid next).trace.model_response_parts.isEmpty
          ∨ c.memory_enabled = true then
        (conv_step deps turnScript users c hist aid next).trace.history_sent
      else (conv_step deps turnScript users c hist aid next).trace.history_sent ++
        [⟨.Model, (conv_step deps turnScript users c hist aid next).trace.model_response_parts⟩]) := by
  cases turnScript with
  | error e => simp [conv_step] at hc
  | ok items =>
    unfold conv_step at hc ⊢
    simp only [] at hc ⊢
    revert hc
    generalize hres : consume_stream deps items
        ⟨{ c with pending_steering := [] }, aid, [], [], []⟩ = p
    obtain ⟨acc, serr⟩ := p
    intro hc
    have hm : acc.conductor.memory_enabled = c.memory_enabled := by
      have := consume_stream_memory deps items
        ⟨{ c with pending_steering := [] }, aid, [], [], []⟩
      rw [hres] at this
      exact this
    cases serr with
    | some e => simp at hc
    | none =>
      by_cases hempty : acc.tool_calls.isEmpty = true
      · rw [if_pos hempty] at hc
        simp at hc
      · rw [if_neg hempty] at hc ⊢
        injection hc with hc
        injection hc with h1 hc
        injection hc with h2 hc
        injection hc with h3 h4
        subst h1 h2 h3 h4
        refine ⟨?_, rfl, rfl, ?_⟩
        · rw [approval_gate_memory deps acc.tool_calls acc.conductor users, hm]
        · by_cases hmp : acc.model_response_parts.isEmpty
          · simp [hmp, hm]
          · by_cases hmem : c.memory_enabled = true
            · simp [hmp, hm, hmem]
            · simp only [Bool.not_eq_true] at hmem
              simp [hmp, hm, hmem]

theorem sent_history_parts (hist : List InteractionTurn) (steering : List String)
    (p : List InteractionPart) :
    sent_history false hist steering (.Parts p) =
      hist ++ steering.map user_text_turn ++ [⟨.User, p⟩] := by
  simp [sent_history, push_next]

theorem conv_loop_invariants (deps : ConductorDeps) :
    ∀ (brains : List (Except String (List (Except String BrainEvent))))
      (users : List String) (c : Conductor) (hist : List InteractionTurn)
      (aid : Option String) (next : InteractionInput),
    (∀ t ∈ (conv_loop deps brains users c hist aid next).traces,
      (t.stream_err = none → t.tool_calls ≠ [] →
        t.results_parts.length = t.tool_calls.length ∧
        (∀ j (call : BufferedCall), t.tool_calls.get? j = some call → ∃ v,
          t.results_parts.get? j =
            some (.FunctionResponse ⟨some call.id, call.name, v⟩)) ∧
        t.next_input = some (.Parts t.results_parts)) ∧
      (t.context.memory_enabled = true → t.context.input = t.submitted_input)) ∧
    List.Chain' (fun t1 t2 => t1.next_input = some t2.submitted_input)
      (conv_loop deps brains users c hist aid next).traces := by
  intro brains
  induction brains with
  | nil =>
    intro users c hist aid next
    exact ⟨fun t ht => absurd ht (List.not_mem_nil t), List.chain'_nil⟩
  | cons ts brest ih =>
    intro users c hist aid next
    have hmemone :
        (conv_step deps ts users c hist aid next).trace.context.memory_enabled = true →
          (conv_step deps ts users c hist aid next).trace.context.input =
            (conv_step deps ts users c hist aid next).trace.submitted_input := by
      obtain ⟨hsub, _, _, hctx⟩ := conv_step_trace_base deps ts users c hist aid next
      intro hmem
      rw [hctx] at hmem ⊢
      simp only [] at hmem
      rw [hsub]
      simp [hmem]
    have hhead := fun hse htc => conv_step_results deps ts users c hist aid next hse htc
    unfold conv_loop
    rcases hc : (conv_step deps ts users c hist aid next).cont with _ | ⟨u2, h3, a2, n2⟩
    · simp only [hc]
      refine ⟨?_, List.chain'_singleton _⟩
      intro t ht
      rw [List.mem_singleton] at ht
      subst ht
      exact ⟨hhead, hmemone⟩
    · simp only [hc]
      obtain ⟨ihmem, ihchain⟩ := ih u2 (conv_step deps ts users c hist aid next).conductor h3 a2 n2
      refine ⟨?_, ?_⟩
      · intro t ht
        rw [List.mem_cons] at ht
        rcases ht with ht | ht
        · subst ht
          exact ⟨hhead, hmemone⟩
        · exact ihmem t ht
      · rw [List.chain'_cons']
        refine ⟨?_, ihchain⟩
        intro t2 ht2
        cases brest with
        | nil => simp [conv_loop] at ht2
        | cons ts2 brest2 =>
          rw [conv_loop_head_cons] at ht2
          injection ht2 with ht2
          subst ht2
          obtain ⟨hsub2, _, _, _⟩ := conv_step_trace_base deps ts2 u2
            (conv_step deps ts users c hist aid next).conductor h3 a2 n2
          rw [hsub2]
          exact (conv_step_cont deps ts users c hist aid next u2 h3 a2 n2 hc).2.2.1

theorem conv_loop_memoryless (deps : ConductorDeps) :
    ∀ (brains : List (Except String (List (Except String BrainEvent))))
      (users : List String) (c : Conductor) (hist : List InteractionTurn)
      (aid : Option String) (next : InteractionInput),
    c.memory_enabled = false →
    (∀ t ∈ (conv_loop deps brains users c hist aid next).traces,
      t.context.previous_interaction_id = none ∧
      t.context.input = .Turns t.history_sent) ∧
    List.Chain' (fun t1 t2 => t2.history_sent =
      (if t1.model_response_parts.isEmpty then t1.history_sent
       else t1.history_sent ++ [(⟨.Model, t1.model_response_parts⟩ : InteractionTurn)]) ++
      t2.drained_steering.map user_text_turn ++
      [(⟨.User, t1.results_parts⟩ : InteractionTurn)])
      (conv_loop deps brains users c hist aid next).traces := by
  intro brains
  induction brains with
  | nil =>
    intro users c hist aid next hmem
    exact ⟨fun t ht => absurd ht (List.not_mem_nil t), List.chain'_nil⟩
  | cons ts brest ih =>
    intro users c hist aid next hmem
    have hhead : (conv_step deps ts users c hist aid next).trace.context.previous_interaction_id
          = none ∧
        (conv_step deps ts users c hist aid next).trace.context.input =
          .Turns (conv_step deps ts users c hist aid next).trace.history_sent := by
      obtain ⟨hsub, hdr, hhist, hctx⟩ := conv_step_trace_base deps ts users c hist aid next
      rw [hctx, hhist]
      constructor
      · simp [hmem]
      · simp [hmem]
    unfold conv_loop
    rcases hc : (conv_step deps ts users c hist aid next).cont with _ | ⟨u2, h3, a2, n2⟩
    · simp only [hc]
      refine ⟨?_, List.chain'_singleton _⟩
      intro t ht
      rw [List.mem_singleton] at ht
      subst ht
      exact hhead
    · simp only [hc]
      obtain ⟨hcm, hn2, hnext, hh3⟩ := conv_step_cont deps ts users c hist aid next u2 h3 a2 n2 hc
      have hcm2 : (conv_step deps ts users c hist aid next).conductor.memory_enabled = false := by
        rw [hcm, hmem]
      obtain ⟨ihmem, ihchain⟩ := ih u2 (conv_step deps ts users c hist aid next).conductor
        h3 a2 n2 hcm2
      refine ⟨?_, ?_⟩
      · intro t ht
        rw [List.mem_cons] at ht
        rcases ht with ht | ht
        · subst ht
          exact hhead
        · exact ihmem t ht
      · rw [List.chain'_cons']
        refine ⟨?_, ihchain⟩
        intro t2 ht2
        cases brest with
        | nil => simp [conv_loop] at ht2
        | cons ts2 brest2 =>
          rw [conv_loop_head_cons] at ht2
          injection ht2 with ht2
          subst ht2
          obtain ⟨hsub2, hdr2, hhist2, hctx2⟩ := conv_step_trace_base deps ts2 u2
            (conv_step deps ts users c hist aid next).conductor h3 a2 n2
          rw [hhist2, hdr2, hcm2, hn2, sent_history_parts, hh3]
          by_cases hmp : (conv_step deps ts users c hist aid next).trace.model_response_parts.isEmpty
          · simp [hmp, hmem]
          · simp [hmp, hmem]


/-- Helper: the replay history built for a `Text` next input in
stateless mode. -/
theorem sent_history_text (hist : List InteractionTurn) (steering : List String)
    (p : String) :
    sent_history false hist steering (.Text p) =
      hist ++ steering.map user_text_turn ++ [⟨.User, contentFromText p⟩] := by
  simp [sent_history, push_next]

/-- Claim C1: in every conversation, a turn whose stream produced k >= 1
buffered tool calls (and no stream error) yields a `results_parts` list
with exactly one `FunctionResponse` per buffered call, in buffer order,
each carrying the answering call's id and name; that list, wrapped as
`Parts`, is exactly the input submitted for the next turn (the recorded
`next_input`, which the following turn receives as its
`submitted_input`, and which in memory-on mode is that turn's
`TurnContext.input` verbatim).  Synthesized error responses for rejected
and failed calls are part of the same list (their shape is fixed by the
gate, proved with the shared gate lemmas). -/
theorem tool_responses_match_calls (deps : ConductorDeps)
    (brains : List (Except String (List (Except String BrainEvent))))
    (users : List String) (c : Conductor) (prompt : String) :
    (∀ t ∈ (handle_conversation deps brains users c prompt).traces,
      (t.stream_err = none → t.tool_calls ≠ [] →
        t.results_parts.length = t.tool_calls.length ∧
        (∀ j (call : BufferedCall), t.tool_calls.get? j = some call → ∃ v,
          t.results_parts.get? j =
            some (.FunctionResponse ⟨some call.id, call.name, v⟩)) ∧
        t.next_input = some (.Parts t.results_parts)) ∧
      (t.context.memory_enabled = true → t.context.input = t.submitted_input)) ∧
    List.Chain' (fun t1 t2 => t1.next_input = some t2.submitted_input)
      (handle_conversation deps brains users c prompt).traces :=
  conv_loop_invariants deps brains users c []
    (if c.memory_enabled then c.previous_interaction_id else none) (.Text prompt)

/-- Witness for claim C1 on the repository's mock-brain scenario: in the
memory-on run the pairing chain holds and turn 1's single tool call
produces exactly one `FunctionResponse` with `call_id = Some("call_1")`,
submitted as turn 2's input. -/
theorem tool_responses_match_calls_witness :
    List.Chain' (fun t1 t2 => t1.next_input = some t2.submitted_input)
      (handle_conversation demoDeps toolBrains ["y"] (demoConductor true) "start").traces ∧
    (handle_conversation demoDeps toolBrains ["y"] (demoConductor true) "start").traces.map
        (fun t => t.next_input) =
      [some (.Parts [.FunctionResponse ⟨some "call_1", "test_tool", Json.null⟩]), none] :=
  ⟨(tool_responses_match_calls demoDeps toolBrains ["y"] (demoConductor true) "start").2,
    rfl⟩

/-- Claim C3: with `memory_enabled = false`, every constructed
`TurnContext` has no `previous_interaction_id` and its input is the
`Turns` replay of the history at that point; the first turn's history is
the pending steering (as `User` turns) followed by the initial prompt as
a `User` turn; and each subsequent turn's history extends the previous
one with a `Model` turn exactly when the previous stream produced
non-empty model response parts, then the steering drained at its head as
`User` turns, then the previous turn's `FunctionResponse` parts as a
`User` turn. -/
theorem memoryless_replay_contexts (deps : ConductorDeps)
    (brains : List (Except String (List (Except String BrainEvent))))
    (users : List String) (c : Conductor) (prompt : String)
    (hmem : c.memory_enabled = false) :
    (∀ t ∈ (handle_conversation deps brains users c prompt).traces,
      t.context.previous_interaction_id = none ∧
      t.context.input = .Turns t.history_sent) ∧
    (∀ t, (handle_conversation deps brains users c prompt).traces.head? = some t →
      t.history_sent =
        c.pending_steering.map user_text_turn ++ [⟨.User, contentFromText prompt⟩] ∧
      t.drained_steering = c.pending_steering) ∧
    List.Chain' (fun t1 t2 => t2.history_sent =
      (if t1.model_response_parts.isEmpty then t1.history_sent
       else t1.history_sent ++ [(⟨.Model, t1.model_response_parts⟩ : InteractionTurn)]) ++
      t2.drained_steering.map user_text_turn ++
      [(⟨.User, t1.results_parts⟩ : InteractionTurn)])
      (handle_conversation deps brains users c prompt).traces := by
  obtain ⟨hmemall, hchain⟩ := conv_loop_memoryless deps brains users c []
    (if c.memory_enabled then c.previous_interaction_id else none) (.Text prompt) hmem
  refine ⟨hmemall, ?_, hchain⟩
  intro t ht
  cases brains with
  | nil => simp [handle_conversation, conv_loop] at ht
  | cons ts brest =>
    rw [show (handle_conversation deps (ts :: brest) users c prompt).traces.head? =
        some (conv_step deps ts users c []
          (if c.memory_enabled then c.previous_interaction_id else none)
          (.Text prompt)).trace from conv_loop_head_cons deps ts brest users c []
            (if c.memory_enabled then c.previous_interaction_id else none)
            (.Text prompt)] at ht
    injection ht with ht
    subst ht
    obtain ⟨hsub, hdr, hhist, hctx⟩ := conv_step_trace_base deps ts users c []
      (if c.memory_enabled then c.previous_interaction_id else none) (.Text prompt)
    refine ⟨?_, hdr⟩
    rw [hhist, hmem, sent_history_text]
    simp

/-- Witness for claim C3 on the repository's private-replay scenario: the
memory-off run satisfies the replay chain, and both constructed contexts
carry `previous_interaction_id = None` with `Turns` inputs (the second
being exactly User(start), Model(function_call), User(tool_result)). -/
theorem memoryless_replay_contexts_witness :
    (demoConductor false).memory_enabled = false ∧
    List.Chain' (fun t1 t2 => t2.history_sent =
      (if t1.model_response_parts.isEmpty then t1.history_sent
       else t1.history_sent ++ [(⟨.Model, t1.model_response_parts⟩ : InteractionTurn)]) ++
      t2.drained_steering.map user_text_turn ++
      [(⟨.User, t1.results_parts⟩ : InteractionTurn)])
      (handle_conversation demoDeps toolBrains ["y"] (demoConductor false) "start").traces ∧
    ((handle_conversation demoDeps toolBrains ["y"] (demoConductor false) "start").traces.map
        (fun t => t.context.previous_interaction_id) = [none, none]) ∧
    ((handle_conversation demoDeps toolBrains ["y"] (demoConductor false) "start").traces.map
        (fun t => t.context.input) =
      [.Turns [⟨.User, [.Text "start"]⟩],
       .Turns [⟨.User, [.Text "start"]⟩,
               ⟨.Model, [.FunctionCall ⟨some "call_1", "test_tool", Json.obj [], none⟩]⟩,
               ⟨.User, [.FunctionResponse ⟨some "call_1", "test_tool", Json.null⟩]⟩]]) :=
  ⟨rfl,
    (memoryless_replay_contexts demoDeps toolBrains ["y"] (demoConductor false) "start"
      rfl).2.2,
    rfl, rfl⟩

/-- Claim C2, code evaluation at the failing input: in the default
memory-on mode, the steering line "actually do X" entered during tool
approval never reaches any request.  The run drains it into the local
`turn_history` (second conjunct), but the memory-on request inputs are
only the prompt and the bare `FunctionResponse` parts (first conjunct) —
`turn_history` is sent only in memory-off mode — and the queue is empty
afterwards (third conjunct), so the steering is silently lost.  In the
same scenario with memory off (fourth conjunct) the steering is applied
exactly once, as a `User` turn of the next replay. -/
theorem steering_lost_in_memory_mode :
    ((handle_conversation demoDeps toolBrains ["actually do X", "y"] (demoConductor true)
        "start").traces.map (fun t => t.context.input) =
      [.Text "start", .Parts [.FunctionResponse ⟨some "call_1", "test_tool", Json.null⟩]]) ∧
    ((handle_conversation demoDeps toolBrains ["actually do X", "y"] (demoConductor true)
        "start").traces.map (fun t => t.history_sent) =
      [[], [user_text_turn "actually do X"]]) ∧
    (handle_conversation demoDeps toolBrains ["actually do X", "y"] (demoConductor true)
        "start").conductor.pending_steering = [] ∧
    ((handle_conversation demoDeps toolBrains ["actually do X", "y"] (demoConductor false)
        "start").traces.map (fun t => t.context.input) =
      [.Turns [⟨.User, [.Text "start"]⟩],
       .Turns [⟨.User, [.Text "start"]⟩,
               ⟨.Model, [.FunctionCall ⟨some "call_1", "test_tool", Json.obj [], none⟩]⟩,
               ⟨.User, [.Text "actually do X"]⟩,
               ⟨.User, [.FunctionResponse ⟨some "call_1", "test_tool", Json.null⟩]⟩]]) :=
  ⟨rfl, rfl, rfl, rfl⟩
